import Mathlib

/-!
# Verification of the GUS data-retrieval and export core

Shallow embedding of the core logic of the `gus.app` repository:

* the multi-unit result pivot of `handleWizardComplete` / `handleProceedToGrid`
  (`src/app/page.tsx`),
* the fetch orchestration around `Promise.all`,
* the remote call plan implied by the wizard flow (`src/app/page.tsx`,
  `src/services/gus-client.ts`, `src/components/wizard/TerritoryBrowser.tsx`),
* the CSV builder and year-axis helper of `src/components/DataDisplay.tsx`,
* the XML serializer of `src/services/xml-generator.ts`.

Machine values arriving from the remote JSON payloads are modelled in their
rendered form (`Option String` for possibly-missing `value` / `val` fields,
`Option Int` for attribute ids), since the code only ever interpolates them
into output strings.
-/

namespace Gus

/-- One raw value record of a remote data response: `{year, value?, val?,
attrId?, "attr-id"?}`.  `value`/`val` carry the rendered numeric value when
present; `attrIdDash` models the `"attr-id"` JSON key. -/
structure RawVal where
  year : Int
  value : Option String
  val : Option String
  attrId : Option Int
  attrIdDash : Option Int
deriving DecidableEq, Repr

/-- A value record after the pivot: the raw fields spread together with the
tag `variableId` added by `{...val, variableId: varId}`. -/
structure TaggedVal where
  year : Int
  value : Option String
  val : Option String
  attrId : Option Int
  attrIdDash : Option Int
  variableId : Nat
deriving DecidableEq, Repr

/-- `{...val, variableId: varId}` — spread the raw record and add the tag. -/
def tagVal (vid : Nat) (r : RawVal) : TaggedVal :=
  { year := r.year, value := r.value, val := r.val, attrId := r.attrId,
    attrIdDash := r.attrIdDash, variableId := vid }

/-- One unit item of a `/data/by-variable` response: `{id, name, values}`. -/
structure UnitData where
  id : String
  name : String
  values : List RawVal
deriving DecidableEq, Repr

/-- One entry of the pivoted (unit-major) dataset: `{id, name, values}` with
tagged value records. -/
structure UnitEntry where
  id : String
  name : String
  values : List TaggedVal
deriving DecidableEq, Repr

/-- Processing of a single `unitItem` by the pivot loop of
`handleWizardComplete` (src/app/page.tsx:513-530): find-or-create the entry
keyed by `unitItem.id` in the insertion-ordered `unitMap`, then push the
tagged values of this unit item onto that entry.  The `Map` is modelled as an
insertion-ordered association list with unique ids. -/
def addUnitItem (vid : Nat) (acc : List UnitEntry) (u : UnitData) : List UnitEntry :=
  if u.id ∈ acc.map UnitEntry.id then
    acc.map (fun e =>
      if e.id = u.id then
        { e with values := e.values ++ u.values.map (tagVal vid) }
      else e)
  else
    acc ++ [⟨u.id, u.name, u.values.map (tagVal vid)⟩]

/-- The multi-unit pivot of `handleWizardComplete` (src/app/page.tsx:509-533)
and `handleProceedToGrid` (src/app/page.tsx:222-248): `allResults` is, per
variable id, the `results` list of that variable's `/data/by-variable`
response; every `(variable, unit)` item is folded into the unit map, and the
output is `Array.from(unitMap.values())` — the entries in insertion order. -/
def pivotResults (rs : List (Nat × List UnitData)) : List UnitEntry :=
  rs.foldl (fun acc p => p.2.foldl (addUnitItem p.1) acc) []

/-- Ids of the pivoted entries, in output order. -/
def idsOf (l : List UnitEntry) : List String := l.map UnitEntry.id

/-- Records stored for unit id `uid` across the entries (the entry's record
list when ids are unique). -/
def valsOf : List UnitEntry → String → List TaggedVal
  | [], _ => []
  | e :: es, uid => (if e.id = uid then e.values else []) ++ valsOf es uid

/-- Specification view of the pivot content: all values of unit `uid` seen in
the raw batch, tagged with their originating variable, in batch order. -/
def collectVals (rs : List (Nat × List UnitData)) (uid : String) : List TaggedVal :=
  rs.flatMap (fun p =>
    p.2.flatMap (fun u => if u.id = uid then u.values.map (tagVal p.1) else []))

/-- Append an element if it has not been seen yet (JS `Set` / `Map` key
insertion order). -/
def seenInsert {α : Type} [DecidableEq α] (acc : List α) (i : α) : List α :=
  if i ∈ acc then acc else acc ++ [i]

/-- First-seen order of a stream of elements (`Array.from(new Set(...))`). -/
def firstSeen {α : Type} [DecidableEq α] (ids : List α) : List α :=
  ids.foldl seenInsert []

/-- The stream of unit ids of a raw batch, in arrival order. -/
def idStream (rs : List (Nat × List UnitData)) : List String :=
  rs.flatMap (fun p => p.2.map UnitData.id)

/-! ### Characterization of the pivot -/

lemma mem_seenInsert {α : Type} [DecidableEq α] {acc : List α} {i x : α} :
    x ∈ seenInsert acc i ↔ x ∈ acc ∨ x = i := by
  unfold seenInsert
  by_cases h : i ∈ acc
  · simp only [h, if_pos]
    constructor
    · exact Or.inl
    · rintro (hx | rfl) <;> assumption
  · simp [h]

lemma nodup_seenInsert {α : Type} [DecidableEq α] {acc : List α} (h : acc.Nodup) (i : α) :
    (seenInsert acc i).Nodup := by
  unfold seenInsert
  by_cases hm : i ∈ acc
  · simpa [hm]
  · rw [if_neg hm, List.nodup_append]
    refine ⟨h, List.nodup_singleton i, ?_⟩
    intro a ha hb
    rw [List.mem_singleton] at hb
    exact hm (hb ▸ ha)

lemma mem_foldl_seenInsert {α : Type} [DecidableEq α] :
    ∀ (ids acc : List α) (x : α),
      x ∈ ids.foldl seenInsert acc ↔ x ∈ acc ∨ x ∈ ids
  | [], acc, x => by simp
  | i :: ids, acc, x => by
    rw [List.foldl_cons, mem_foldl_seenInsert ids (seenInsert acc i) x, mem_seenInsert]
    simp only [List.mem_cons]
    tauto

lemma nodup_foldl_seenInsert {α : Type} [DecidableEq α] :
    ∀ (ids acc : List α), acc.Nodup → (ids.foldl seenInsert acc).Nodup
  | [], _, h => h
  | i :: ids, acc, h =>
    nodup_foldl_seenInsert ids (seenInsert acc i) (nodup_seenInsert h i)

lemma mem_firstSeen {α : Type} [DecidableEq α] {ids : List α} {x : α} :
    x ∈ firstSeen ids ↔ x ∈ ids := by
  unfold firstSeen
  rw [mem_foldl_seenInsert]
  simp

lemma nodup_firstSeen {α : Type} [DecidableEq α] (ids : List α) :
    (firstSeen ids).Nodup :=
  nodup_foldl_seenInsert ids [] List.nodup_nil

lemma idsOf_addUnitItem (vid : Nat) (acc : List UnitEntry) (u : UnitData) :
    idsOf (addUnitItem vid acc u) = seenInsert (idsOf acc) u.id := by
  unfold addUnitItem seenInsert idsOf
  by_cases h : u.id ∈ acc.map UnitEntry.id
  · simp only [h, if_pos, List.map_map]
    apply List.map_congr_left
    intro e _
    by_cases he : e.id = u.id <;> simp [he]
  · simp [h]

lemma valsOf_append (l₁ l₂ : List UnitEntry) (uid : String) :
    valsOf (l₁ ++ l₂) uid = valsOf l₁ uid ++ valsOf l₂ uid := by
  induction l₁ with
  | nil => rfl
  | cons e es ih => simp [valsOf, ih]

lemma valsOf_eq_nil_of_not_mem {l : List UnitEntry} {uid : String}
    (h : uid ∉ idsOf l) : valsOf l uid = [] := by
  induction l with
  | nil => rfl
  | cons e es ih =>
    simp only [idsOf, List.map_cons, List.mem_cons] at h
    push_neg at h
    have : ¬(e.id = uid) := fun he => h.1 he.symm
    simp only [valsOf, this, if_neg, List.nil_append]
    exact ih (by simpa [idsOf] using h.2)

lemma map_update_eq_self {es : List UnitEntry} {t : String} (tv : List TaggedVal)
    (h : t ∉ idsOf es) :
    es.map (fun e => if e.id = t then { e with values := e.values ++ tv } else e) = es := by
  induction es with
  | nil => rfl
  | cons x xs ihx =>
    simp only [idsOf, List.map_cons, List.mem_cons] at h
    push_neg at h
    have hx : x.id ≠ t := fun hxt => h.1 hxt.symm
    rw [List.map_cons, if_neg hx, ihx (by simpa [idsOf] using h.2)]

lemma valsOf_map_update {acc : List UnitEntry} {t : String} (tv : List TaggedVal)
    (hnd : (idsOf acc).Nodup) (hmem : t ∈ idsOf acc) (uid : String) :
    valsOf (acc.map (fun e =>
        if e.id = t then { e with values := e.values ++ tv } else e)) uid
      = valsOf acc uid ++ (if t = uid then tv else []) := by
  induction acc with
  | nil => simp [idsOf] at hmem
  | cons e es ih =>
    simp only [idsOf, List.map_cons, List.nodup_cons] at hnd
    rcases hnd with ⟨hnotin, hnd'⟩
    simp only [idsOf, List.map_cons, List.mem_cons] at hmem
    by_cases he : e.id = t
    · -- the head entry is the updated one; `t` cannot occur in the tail
      have htail : t ∉ idsOf es := by
        intro hx
        exact hnotin (he ▸ hx)
      rw [List.map_cons, if_pos he, map_update_eq_self tv htail]
      by_cases hu : t = uid
      · have heu : e.id = uid := he.trans hu
        have hnil : valsOf es uid = [] := by
          rw [← hu]
          exact valsOf_eq_nil_of_not_mem htail
        simp [valsOf, heu, hu, hnil]
      · have heu : e.id ≠ uid := fun h => hu (he ▸ h)
        simp [valsOf, heu, hu]
    · -- the head entry is untouched
      have hmem' : t ∈ idsOf es := by
        rcases hmem with h | h
        · exact absurd h.symm he
        · exact h
      rw [List.map_cons, if_neg he]
      simp only [valsOf]
      rw [ih hnd' hmem', List.append_assoc]

lemma valsOf_addUnitItem {acc : List UnitEntry} (vid : Nat) (u : UnitData)
    (hnd : (idsOf acc).Nodup) (uid : String) :
    valsOf (addUnitItem vid acc u) uid
      = valsOf acc uid ++ (if u.id = uid then u.values.map (tagVal vid) else []) := by
  unfold addUnitItem
  by_cases h : u.id ∈ acc.map UnitEntry.id
  · rw [if_pos h]
    exact valsOf_map_update (u.values.map (tagVal vid)) hnd h uid
  · rw [if_neg h, valsOf_append]
    simp [valsOf]

lemma nodup_idsOf_addUnitItem {acc : List UnitEntry} (vid : Nat) (u : UnitData)
    (hnd : (idsOf acc).Nodup) : (idsOf (addUnitItem vid acc u)).Nodup := by
  rw [idsOf_addUnitItem]
  exact nodup_seenInsert hnd u.id

lemma idsOf_foldl_units (vid : Nat) :
    ∀ (us : List UnitData) (acc : List UnitEntry),
      idsOf (us.foldl (addUnitItem vid) acc)
        = (us.map UnitData.id).foldl seenInsert (idsOf acc)
  | [], acc => rfl
  | u :: us, acc => by
    rw [List.foldl_cons, idsOf_foldl_units vid us (addUnitItem vid acc u),
      idsOf_addUnitItem, List.map_cons, List.foldl_cons]

lemma valsOf_foldl_units (vid : Nat) (uid : String) :
    ∀ (us : List UnitData) (acc : List UnitEntry), (idsOf acc).Nodup →
      valsOf (us.foldl (addUnitItem vid) acc) uid
        = valsOf acc uid
          ++ us.flatMap (fun u => if u.id = uid then u.values.map (tagVal vid) else [])
  | [], acc, _ => by simp
  | u :: us, acc, hnd => by
    rw [List.foldl_cons,
      valsOf_foldl_units vid uid us (addUnitItem vid acc u)
        (nodup_idsOf_addUnitItem vid u hnd),
      valsOf_addUnitItem vid u hnd uid, List.flatMap_cons, List.append_assoc]

lemma nodup_idsOf_foldl_units (vid : Nat) (us : List UnitData) (acc : List UnitEntry)
    (hnd : (idsOf acc).Nodup) : (idsOf (us.foldl (addUnitItem vid) acc)).Nodup := by
  rw [idsOf_foldl_units]
  exact nodup_foldl_seenInsert _ _ hnd

lemma idsOf_pivot_foldl :
    ∀ (rs : List (Nat × List UnitData)) (acc : List UnitEntry),
      idsOf (rs.foldl (fun acc p => p.2.foldl (addUnitItem p.1) acc) acc)
        = (idStream rs).foldl seenInsert (idsOf acc)
  | [], acc => rfl
  | p :: rs, acc => by
    rw [List.foldl_cons, idsOf_pivot_foldl rs (p.2.foldl (addUnitItem p.1) acc),
      idsOf_foldl_units]
    simp only [idStream, List.flatMap_cons, List.foldl_append]

lemma nodup_idsOf_pivot_foldl (rs : List (Nat × List UnitData)) (acc : List UnitEntry)
    (hnd : (idsOf acc).Nodup) :
    (idsOf (rs.foldl (fun acc p => p.2.foldl (addUnitItem p.1) acc) acc)).Nodup := by
  rw [idsOf_pivot_foldl]
  exact nodup_foldl_seenInsert _ _ hnd

lemma valsOf_pivot_foldl (uid : String) :
    ∀ (rs : List (Nat × List UnitData)) (acc : List UnitEntry), (idsOf acc).Nodup →
      valsOf (rs.foldl (fun acc p => p.2.foldl (addUnitItem p.1) acc) acc) uid
        = valsOf acc uid ++ collectVals rs uid
  | [], acc, _ => by simp [collectVals]
  | p :: rs, acc, hnd => by
    rw [List.foldl_cons,
      valsOf_pivot_foldl uid rs (p.2.foldl (addUnitItem p.1) acc)
        (nodup_idsOf_foldl_units p.1 p.2 acc hnd),
      valsOf_foldl_units p.1 uid p.2 acc hnd]
    simp only [collectVals, List.flatMap_cons, List.append_assoc]

/-- The pivoted entries appear in first-seen order of the unit ids. -/
lemma idsOf_pivotResults (rs : List (Nat × List UnitData)) :
    idsOf (pivotResults rs) = firstSeen (idStream rs) :=
  idsOf_pivot_foldl rs []

/-- The pivoted dataset has one entry per distinct unit id. -/
lemma nodup_idsOf_pivotResults (rs : List (Nat × List UnitData)) :
    (idsOf (pivotResults rs)).Nodup :=
  nodup_idsOf_pivot_foldl rs [] List.nodup_nil

/-- The records stored for a unit id are exactly the tagged raw values of that
unit, in batch arrival order. -/
lemma valsOf_pivotResults (rs : List (Nat × List UnitData)) (uid : String) :
    valsOf (pivotResults rs) uid = collectVals rs uid :=
  valsOf_pivot_foldl uid rs [] List.nodup_nil

lemma mem_idStream {rs : List (Nat × List UnitData)} {x : String} :
    x ∈ idStream rs ↔ ∃ p ∈ rs, ∃ u ∈ p.2, u.id = x := by
  unfold idStream
  simp only [List.mem_flatMap, List.mem_map]

lemma mem_collectVals {rs : List (Nat × List UnitData)} {uid : String} {t : TaggedVal} :
    t ∈ collectVals rs uid
      ↔ ∃ p ∈ rs, ∃ u ∈ p.2, u.id = uid ∧ ∃ r ∈ u.values, t = tagVal p.1 r := by
  unfold collectVals
  simp only [List.mem_flatMap]
  constructor
  · rintro ⟨p, hp, u, hu, ht⟩
    by_cases h : u.id = uid
    · simp only [h, if_pos, List.mem_map] at ht
      rcases ht with ⟨r, hr, rfl⟩
      exact ⟨p, hp, u, hu, h, r, hr, rfl⟩
    · simp [h] at ht
  · rintro ⟨p, hp, u, hu, h, r, hr, rfl⟩
    refine ⟨p, hp, u, hu, ?_⟩
    rw [if_pos h]
    exact List.mem_map_of_mem (tagVal p.1) hr

/-- Permutation invariance of the pivoted record content: permuting the
per-variable raw results permutes `collectVals` per unit. -/
lemma collectVals_perm {rs rs' : List (Nat × List UnitData)} (h : rs.Perm rs')
    (uid : String) : (collectVals rs uid).Perm (collectVals rs' uid) :=
  List.Perm.flatMap_right _ h

lemma idStream_perm {rs rs' : List (Nat × List UnitData)} (h : rs.Perm rs') :
    (idStream rs).Perm (idStream rs') :=
  List.Perm.flatMap_right _ h

/-- With unique ids, an entry's record list is exactly `valsOf` at its id. -/
lemma valsOf_of_mem {l : List UnitEntry} {e : UnitEntry}
    (he : e ∈ l) (hnd : (idsOf l).Nodup) : valsOf l e.id = e.values := by
  induction l with
  | nil => cases he
  | cons f fs ih =>
    simp only [idsOf, List.map_cons, List.nodup_cons] at hnd
    rcases hnd with ⟨hnotin, hnd'⟩
    rcases List.mem_cons.mp he with rfl | hmem
    · have : valsOf fs e.id = [] := by
        apply valsOf_eq_nil_of_not_mem
        simpa [idsOf] using hnotin
      simp [valsOf, this]
    · have hne : f.id ≠ e.id := by
        intro h
        exact hnotin (h ▸ List.mem_map_of_mem UnitEntry.id hmem)
      simp [valsOf, hne, ih hmem hnd']

/-! ### Fetch orchestration (`handleWizardComplete`, src/app/page.tsx:489-564)

In multi-unit mode the code builds one fetch promise per selected variable
and awaits `Promise.all(fetchPromises)`; there is no per-promise catch, so
any rejected fetch rejects the whole `Promise.all`, control jumps to the
outer catch block, and no dataset is produced.  A fetch outcome is
modelled as `Except String (List UnitData)` tagged with its variable id. -/

/-- `await Promise.all(fetchPromises)`: succeeds with all tagged results only
when every fetch succeeded; otherwise the whole combination fails with a
rejection reason (time order of rejections is not modelled: the first
errored entry in list order stands in for the winning rejection). -/
def allSettledOk : List (Nat × Except String (List UnitData)) →
    Except String (List (Nat × List UnitData))
  | [] => Except.ok []
  | (_, Except.error e) :: _ => Except.error e
  | (vid, Except.ok d) :: rest =>
    match allSettledOk rest with
    | Except.error e => Except.error e
    | Except.ok rs => Except.ok ((vid, d) :: rs)

/-- The multi-unit fetch of `handleWizardComplete`: await all per-variable
fetches, then pivot.  An error anywhere reaches the outer catch and no
dataset (and no failure list) is returned. -/
def fetchMultiUnit (outcomes : List (Nat × Except String (List UnitData))) :
    Except String (List UnitEntry) :=
  match allSettledOk outcomes with
  | Except.error e => Except.error e
  | Except.ok rs => Except.ok (pivotResults rs)

/-! ### The remote call plan of the wizard flow -/

/-- A selected variable as passed through `SearchWizard` (`{id, n1, ...}`). -/
structure SrcVariable where
  id : Nat
  n1 : String
deriving DecidableEq, Repr

/-- A selected unit (`{id, name, level}`). -/
structure SrcUnit where
  id : String
  name : String
  level : Nat
deriving DecidableEq, Repr

/-- The `config` object handed to `handleWizardComplete`
(src/app/page.tsx:452-457). -/
structure WizardConfig where
  vars : List SrcVariable
  unit : SrcUnit
  childLevel : Option Nat
  years : List Int
deriving DecidableEq, Repr

/-- The remote calls the core can issue (`src/services/gus-client.ts`):
`getUnitData` (`/data/by-unit`), `getVariableData` (`/data/by-variable` with
`unit-level` and `unit-parent-id`) and `getUnits` (`/units` listing). -/
inductive GusCall
  | byUnit (unitId : String) (varIds : List Nat) (years : List Int)
  | byVariable (varId : Nat) (unitLevel : Nat) (years : List Int) (parentId : String)
  | listUnits (level : Nat) (parentId : Option String)
deriving DecidableEq, Repr

/-- Is this a unit-listing (hierarchy-resolution) call? -/
def isListingCall : GusCall → Bool
  | GusCall.listUnits _ _ => true
  | _ => false

/-- The data calls issued by `handleWizardComplete` (src/app/page.tsx:489-556):
multi-unit mode (`childLevel !== undefined`) issues one
`getVariableData(variable.id, childLevel, years, unit.id)` per selected
variable; single-unit mode issues the single
`getUnitData(unit.id, varIds, years)`.  No `/units` listing call is issued
in either mode. -/
def wizardCallPlan (c : WizardConfig) : List GusCall :=
  match c.childLevel with
  | some lvl =>
    c.vars.map (fun v => GusCall.byVariable v.id lvl c.years c.unit.id)
  | none =>
    [GusCall.byUnit c.unit.id (c.vars.map SrcVariable.id) c.years]

/-- The one-hop drill-down of `TerritoryBrowser.handleUnitClick`
(src/components/wizard/TerritoryBrowser.tsx:84-87): clicking a level-2 unit
loads its level-5 children, a level-5 unit loads its level-6 children,
anything else stops (level 4 is skipped). -/
def nextDrillLevel (level : Nat) : Option Nat :=
  if level = 2 then some 5
  else if level = 5 then some 6
  else none

/-! ### The CSV builder and year axis of `DataDisplay`
(src/components/DataDisplay.tsx) -/

/-- One variable object of a single-unit `/data/by-unit` response
(`{id, name, "measure-unit", values}`). -/
structure VarResult where
  id : Nat
  name : String
  measureUnit : String
  values : List RawVal
deriving DecidableEq, Repr

/-- A candidate-variable metadata object (`candidateVars` prop):
`{id, n1, "measure-unit"}`. -/
structure CandidateVar where
  id : Nat
  n1 : String
  measureUnit : String
deriving DecidableEq, Repr

/-- `getAllYears` for multi-unit data (src/components/DataDisplay.tsx:24-31):
collect the years of every record into a `Set`, then sort ascending
(`.sort((a, b) => a - b)`). -/
def getAllYearsMulti (data : List UnitEntry) : List Int :=
  List.insertionSort (fun a b => a ≤ b)
    (firstSeen (data.flatMap (fun u => u.values.map TaggedVal.year)))

/-- `getAllYears` for single-unit data (src/components/DataDisplay.tsx:27-31). -/
def getAllYearsSingle (data : List VarResult) : List Int :=
  List.insertionSort (fun a b => a ≤ b)
    (firstSeen (data.flatMap (fun v => v.values.map RawVal.year)))

/-- `unit.values?.find(v => v.variableId === vid && v.year === year)` —
`Array.prototype.find` returns the first matching record. -/
def findVal (u : UnitEntry) (vid : Nat) (year : Int) : Option TaggedVal :=
  u.values.find? (fun v => v.variableId == vid && v.year == year)

/-- `valObj ? (valObj.value ?? valObj.val ?? "") : ""`. -/
def renderVal : Option TaggedVal → String
  | some v => v.value.getD (v.val.getD "")
  | none => ""

/-- The distinct variable ids of the dataset, in first-seen order
(`new Set` filled by the nested `forEach`). -/
def uniqueVarIds (data : List UnitEntry) : List Nat :=
  firstSeen (data.flatMap (fun u => u.values.map TaggedVal.variableId))

/-- Header cell for a variable column: the quoted `found?.n1 || vid`. -/
def varHeaderName (cv : List CandidateVar) (vid : Nat) : String :=
  match cv.find? (fun c => c.id == vid) with
  | some c => if c.n1 = "" then "\"" ++ toString vid ++ "\"" else "\"" ++ c.n1 ++ "\""
  | none => "\"" ++ toString vid ++ "\""

/-- The cells of one multi-unit CSV row: the unit id, the quoted unit name,
the year, then one value cell per variable column
(src/components/DataDisplay.tsx:102-107). -/
def rowCells (uvars : List Nat) (u : UnitEntry) (year : Int) : List String :=
  [u.id, "\"" ++ u.name ++ "\"", toString year]
    ++ uvars.map (fun vid => renderVal (findVal u vid year))

/-- `hasData`: some variable has a record at this (unit, year). -/
def rowHasData (uvars : List Nat) (u : UnitEntry) (year : Int) : Bool :=
  uvars.any (fun vid => (findVal u vid year).isSome)

/-- The emitted multi-unit CSV data rows, as cell lists: for every unit and
every dataset year, the row is pushed only `if (hasData)`
(src/components/DataDisplay.tsx:99-111). -/
def multiUnitRows (data : List UnitEntry) : List (List String) :=
  data.flatMap (fun u =>
    (getAllYearsMulti data).filterMap (fun y =>
      if rowHasData (uniqueVarIds data) u y
      then some (rowCells (uniqueVarIds data) u y) else none))

/-- The multi-unit CSV header row. -/
def multiUnitCsvHeader (data : List UnitEntry) (cv : List CandidateVar) : String :=
  String.intercalate ","
    (["UnitId", "UnitName", "Year"] ++ (uniqueVarIds data).map (varHeaderName cv))

/-- The full multi-unit CSV: header, newline, rows joined by newlines. -/
def multiUnitCsv (data : List UnitEntry) (cv : List CandidateVar) : String :=
  multiUnitCsvHeader data cv ++ "\n"
    ++ String.intercalate "\n" ((multiUnitRows data).map (String.intercalate ","))

/-! ### The XML serializer (`src/services/xml-generator.ts`)

`generateGusXml` reads the wall clock (`new Date().toISOString()`) at the top
of its body; the sampled timestamp is made an explicit argument of the
embedding.  The `results: any[]` payload holds unit objects in multi-unit
scope and variable objects in single-unit scope, modelled as two typed
fields selected by `scope`. -/

/-- JS template-literal rendering of a possibly-missing string field
(`undefined` interpolates as the text `undefined`). -/
def jsStr : Option String → String
  | some s => s
  | none => "undefined"

/-- Per-character replacement of `escapeXml`'s regex. -/
def escapeChar (c : Char) : String :=
  if c = '<' then "&lt;"
  else if c = '>' then "&gt;"
  else if c = '&' then "&amp;"
  else if c = '\'' then "&apos;"
  else if c = '"' then "&quot;"
  else String.singleton c

/-- Concatenation of the per-character replacements (the global regex
replace walks the characters left to right). -/
def escapeCore : List Char → String
  | [] => ""
  | c :: cs => escapeChar c ++ escapeCore cs

/-- `escapeXml` (src/services/xml-generator.ts:98-110): falsy input renders
as the empty string; otherwise each of the five special characters is
replaced by its entity. -/
def escapeXml (s : String) : String :=
  if s = "" then ""
  else escapeCore s.data

/-- A variable of the XML variables block (`{id, n1, measureUnit}`). -/
structure XmlVariable where
  id : Nat
  n1 : String
  measureUnit : String
deriving DecidableEq, Repr

/-- The `GusXmlData` input of `generateGusXml`. -/
structure GusXmlData where
  scope : String
  unitId : String
  unitName : String
  vars : List XmlVariable
  resultsMulti : List UnitEntry
  resultsSingle : List VarResult
deriving DecidableEq, Repr

/-- One Variable block (src/services/xml-generator.ts:28-33). -/
def xmlVariableBlock (v : XmlVariable) : String :=
  "    <Variable id=\"" ++ toString v.id ++ "\">\n      <Name>"
    ++ escapeXml v.n1 ++ "</Name>\n      <MeasureUnit>"
    ++ escapeXml v.measureUnit ++ "</MeasureUnit>\n    </Variable>"

/-- One multi-unit Record block (src/services/xml-generator.ts:46-54): the
record value is interpolated without escaping. -/
def xmlRecordMulti (val : TaggedVal) : String :=
  "      <Record varId=\"" ++ toString val.variableId ++ "\" year=\""
    ++ toString val.year ++ "\">\n"
    ++ "        <Value>" ++ jsStr val.value ++ "</Value>\n"
    ++ (match val.attrId with
        | some a => "        <AttributeId>" ++ toString a ++ "</AttributeId>\n"
        | none => "")
    ++ "      </Record>"

/-- One multi-unit Unit block (src/services/xml-generator.ts:44-55): the
unit id is interpolated raw, the unit name is escaped. -/
def xmlUnitBlock (u : UnitEntry) : String :=
  "    <Unit id=\"" ++ u.id ++ "\" name=\"" ++ escapeXml u.name ++ "\">" ++ "\n"
    ++ String.intercalate "\n" (u.values.map xmlRecordMulti)
    ++ "\n    </Unit>"

/-- One single-unit Record block (src/services/xml-generator.ts:61-75):
the value falls back from `value` to `val`, the attribute id from `attrId`
to the dashed key. -/
def xmlRecordSingle (varId : Nat) (val : RawVal) : String :=
  "    <Record varId=\"" ++ toString varId ++ "\" year=\""
    ++ toString val.year ++ "\">\n"
    ++ "      <Value>" ++ jsStr (val.value.orElse (fun _ => val.val)) ++ "</Value>\n"
    ++ (match val.attrId.orElse (fun _ => val.attrIdDash) with
        | some a => "      <AttributeId>" ++ toString a ++ "</AttributeId>\n"
        | none => "")
    ++ "    </Record>"

/-- The Results block, by scope. -/
def xmlResultsBlock (data : GusXmlData) : String :=
  if data.scope = "multi_unit" then
    String.intercalate "\n" (data.resultsMulti.map xmlUnitBlock)
  else
    String.intercalate "\n"
      (data.resultsSingle.map (fun v =>
        String.intercalate "\n" (v.values.map (xmlRecordSingle v.id))))

/-- Everything of the XML document before the interpolated timestamp. -/
def xmlHead (data : GusXmlData) : String :=
  "<?xml version=\"1.0\" encoding=\"UTF-8\"?>\n<GusData>\n  <Metadata>\n    <Scope>"
    ++ data.scope ++ "</Scope>\n    <UnitId>" ++ data.unitId
    ++ "</UnitId>\n    <UnitName>" ++ escapeXml data.unitName
    ++ "</UnitName>\n    <LastUpdate>"

/-- Everything of the XML document after the interpolated timestamp. -/
def xmlTail (data : GusXmlData) : String :=
  "</LastUpdate>\n    <Provider>Główny Urząd Statystyczny - BDL</Provider>\n  </Metadata>\n\n  <Variables>\n"
    ++ String.intercalate "\n" (data.vars.map xmlVariableBlock)
    ++ "\n  </Variables>\n\n  <Results>\n"
    ++ xmlResultsBlock data
    ++ "\n  </Results>\n</GusData>"

/-- `generateGusXml` (src/services/xml-generator.ts:24-96) with the sampled
`new Date().toISOString()` made explicit: the output is the fixed template
with the timestamp interpolated into the LastUpdate element. -/
def generateGusXml (data : GusXmlData) (timestamp : String) : String :=
  xmlHead data ++ timestamp ++ xmlTail data

/-! ### Helper lemmas for the fetch combination, the year axis and `find` -/

/-- Did this per-variable fetch succeed? -/
def isOkOutcome : Except String (List UnitData) → Bool
  | Except.ok _ => true
  | Except.error _ => false

lemma allSettledOk_all_ok :
    ∀ (outcomes : List (Nat × Except String (List UnitData))),
      (∀ p ∈ outcomes, isOkOutcome p.2 = true) →
      ∃ rs, allSettledOk outcomes = Except.ok rs
  | [], _ => ⟨[], rfl⟩
  | (vid, out) :: rest, h => by
    match hout : out with
    | Except.error e =>
      have := h (vid, Except.error e) (by simp)
      simp [isOkOutcome] at this
    | Except.ok d =>
      obtain ⟨rs, hrs⟩ := allSettledOk_all_ok rest (fun p hp => h p (List.mem_cons_of_mem _ hp))
      exact ⟨(vid, d) :: rs, by simp [allSettledOk, hrs]⟩

lemma allSettledOk_has_error :
    ∀ (outcomes : List (Nat × Except String (List UnitData))),
      (∃ p ∈ outcomes, isOkOutcome p.2 = false) →
      ∃ e, allSettledOk outcomes = Except.error e
  | [], h => by simp at h
  | (vid, out) :: rest, h => by
    match hout : out with
    | Except.error e => exact ⟨e, rfl⟩
    | Except.ok d =>
      have hrest : ∃ p ∈ rest, isOkOutcome p.2 = false := by
        rcases h with ⟨p, hp, hpf⟩
        rcases List.mem_cons.mp hp with rfl | hp'
        · simp [isOkOutcome] at hpf
        · exact ⟨p, hp', hpf⟩
      obtain ⟨e, he⟩ := allSettledOk_has_error rest hrest
      exact ⟨e, by simp [allSettledOk, he]⟩

/-- `Array.prototype.find` is the head of the filtered list. -/
lemma find?_eq_head?_filter {α : Type} (p : α → Bool) (l : List α) :
    l.find? p = (l.filter p).head? := by
  induction l with
  | nil => rfl
  | cons a l ih =>
    rw [List.find?_cons, List.filter_cons]
    by_cases h : p a
    · simp [h]
    · simp only [h, Bool.false_eq_true, if_false, ih, cond_false]

/-- Sorting the first-seen distinct elements: strictly ascending output whose
membership is that of the underlying stream. -/
lemma sortedDistinct_spec (l : List Int) :
    (List.insertionSort (fun a b => a ≤ b) (firstSeen l)).Sorted (· < ·)
    ∧ ∀ y : Int, y ∈ List.insertionSort (fun a b => a ≤ b) (firstSeen l) ↔ y ∈ l := by
  have hperm := List.perm_insertionSort (fun a b => a ≤ b) (firstSeen l)
  have hnd : (List.insertionSort (fun a b => a ≤ b) (firstSeen l)).Nodup :=
    hperm.nodup_iff.mpr (nodup_firstSeen l)
  have hsorted : (List.insertionSort (fun a b => a ≤ b) (firstSeen l)).Sorted
      (fun a b => a ≤ b) :=
    List.sorted_insertionSort (fun a b => a ≤ b) (firstSeen l)
  constructor
  · exact (hsorted.and hnd).imp (fun h => lt_of_le_of_ne h.1 h.2)
  · intro y
    rw [hperm.mem_iff, mem_firstSeen]

lemma escapeChar_no_specials (a c : Char) (h : c ∈ (escapeChar a).data) :
    c ≠ '<' ∧ c ≠ '>' ∧ c ≠ '"' ∧ c ≠ '\'' := by
  unfold escapeChar at h
  split_ifs at h with h1 h2 h3 h4 h5
  · have he : ("&lt;").data = ['&', 'l', 't', ';'] := rfl
    rw [he] at h
    fin_cases h <;> decide
  · have he : ("&gt;").data = ['&', 'g', 't', ';'] := rfl
    rw [he] at h
    fin_cases h <;> decide
  · have he : ("&amp;").data = ['&', 'a', 'm', 'p', ';'] := rfl
    rw [he] at h
    fin_cases h <;> decide
  · have he : ("&apos;").data = ['&', 'a', 'p', 'o', 's', ';'] := rfl
    rw [he] at h
    fin_cases h <;> decide
  · have he : ("&quot;").data = ['&', 'q', 'u', 'o', 't', ';'] := rfl
    rw [he] at h
    fin_cases h <;> decide
  · have he : (String.singleton a).data = [a] := rfl
    rw [he] at h
    have : c = a := List.mem_singleton.mp h
    subst this
    exact ⟨h1, h2, h5, h4⟩

lemma mem_escapeCore {l : List Char} {c : Char}
    (h : c ∈ (escapeCore l).data) : ∃ a ∈ l, c ∈ (escapeChar a).data := by
  induction l with
  | nil => cases h
  | cons a l ih =>
    rw [show escapeCore (a :: l) = escapeChar a ++ escapeCore l from rfl,
      String.data_append] at h
    rcases List.mem_append.mp h with h' | h'
    · exact ⟨a, List.mem_cons_self a l, h'⟩
    · obtain ⟨b, hb, hcb⟩ := ih h'
      exact ⟨b, List.mem_cons_of_mem a hb, hcb⟩

/-! ### Concrete inputs used by witnesses and counterexamples -/

/-- A raw 2022 record with value 10. -/
def exR1 : RawVal := ⟨2022, some "10", none, none, none⟩

/-- A raw 2023 record with value 12. -/
def exR2 : RawVal := ⟨2023, some "12", none, none, none⟩

/-- Unit A with records for 2022 and 2023. -/
def exUnitA : UnitData := ⟨"a", "Unit A", [exR1, exR2]⟩

/-- Unit B with a record for 2022 only. -/
def exUnitB : UnitData := ⟨"b", "Unit B", [exR1]⟩

/-- A two-variable raw batch over units A and B. -/
def pivotExample : List (Nat × List UnitData) := [(1, [exUnitA, exUnitB]), (2, [exUnitB, exUnitA])]

/-- The same batch with the two variables' results swapped. -/
def pivotExampleSwapped : List (Nat × List UnitData) :=
  [(2, [exUnitB, exUnitA]), (1, [exUnitA, exUnitB])]

/-- The pivoted entry for unit A in `pivotExample`. -/
def exEntryA : UnitEntry :=
  ⟨"a", "Unit A", [tagVal 1 exR1, tagVal 1 exR2, tagVal 2 exR1, tagVal 2 exR2]⟩

/-- A batch where variable 1's fetch succeeded over five units and variable
2's fetch failed. -/
def failedBatch : List (Nat × Except String (List UnitData)) :=
  [(1, Except.ok [⟨"u1", "U1", [exR1]⟩, ⟨"u2", "U2", [exR1]⟩, ⟨"u3", "U3", [exR1]⟩,
                  ⟨"u4", "U4", [exR1]⟩, ⟨"u5", "U5", [exR1]⟩]),
   (2, Except.error "HTTP 500")]

/-- A batch where both per-variable fetches succeeded. -/
def okBatch : List (Nat × Except String (List UnitData)) :=
  [(1, Except.ok [exUnitA]), (2, Except.ok [exUnitB])]

/-- A wizard configuration whose hierarchy gap needs two hops (root level 2,
target level 6). -/
def twoHopConfig : WizardConfig :=
  ⟨[⟨100, "Var 100"⟩, ⟨200, "Var 200"⟩], ⟨"WOJ1", "Woj 1", 2⟩, some 6, [2022, 2023]⟩

/-- A wizard configuration with no target level (single-unit scope). -/
def singleConfig : WizardConfig :=
  ⟨[⟨1, "V1"⟩, ⟨2, "V2"⟩], ⟨"GMI1", "Gmina 1", 6⟩, none, [2022, 2023]⟩

/-- A pivoted dataset where unit B has no record at the dataset year 2023. -/
def gapUnitA : UnitEntry :=
  ⟨"a", "Unit A", [⟨2022, some "1", none, none, none, 7⟩, ⟨2023, some "2", none, none, none, 7⟩]⟩

/-- The unit with the 2023 gap. -/
def gapUnitB : UnitEntry := ⟨"b", "Unit B", [⟨2022, some "3", none, none, none, 7⟩]⟩

/-- The two-unit dataset with a missing (unit B, 2023) combination. -/
def gapData : List UnitEntry := [gapUnitA, gapUnitB]

/-- A duplicate (unit, variable, year) pair: value 10 arrives first, 20 second. -/
def dupR1 : RawVal := ⟨2022, some "10", none, none, none⟩

/-- The later-arriving duplicate record with value 20. -/
def dupR2 : RawVal := ⟨2022, some "20", none, none, none⟩

/-- A raw batch holding the duplicate records for the same unit/variable/year. -/
def dupBatch : List (Nat × List UnitData) := [(7, [⟨"u1", "U1", [dupR1, dupR2]⟩])]

/-- The pivoted entry holding both duplicate records in arrival order. -/
def dupEntry : UnitEntry := ⟨"u1", "U1", [tagVal 7 dupR1, tagVal 7 dupR2]⟩

/-- A dataset whose records arrive in descending year order. -/
def yearsData : List UnitEntry :=
  [⟨"z", "Unit Z", [⟨2023, some "9", none, none, none, 1⟩, ⟨2022, some "8", none, none, none, 1⟩]⟩]

/-- A small XML input (multi-unit scope, no variables, no units). -/
def xmlExample : GusXmlData := ⟨"multi_unit", "WOJ1", "Woj 1", [], [], []⟩

/-- A record whose value contains an XML special character. -/
def badVal : TaggedVal := ⟨2022, some "a<b", none, none, none, 5⟩

/-! ### The claims -/

/-- C1: for every multi-unit fetch result, normalization produces exactly one
output entry per distinct unit id appearing anywhere in the input
(find-or-create keyed by unit id), and every value record appended to a
unit's entry carries the variableId of the variable whose raw result it came
from. -/
theorem C1_pivot_one_entry_per_unit_and_tagging (rs : List (Nat × List UnitData)) :
    (idsOf (pivotResults rs)).Nodup
    ∧ (∀ uid : String, uid ∈ idsOf (pivotResults rs) ↔ ∃ p ∈ rs, ∃ u ∈ p.2, u.id = uid)
    ∧ (∀ e ∈ pivotResults rs, ∀ t ∈ e.values,
        ∃ p ∈ rs, ∃ u ∈ p.2, u.id = e.id ∧ ∃ r ∈ u.values, t = tagVal p.1 r) := by
  refine ⟨nodup_idsOf_pivotResults rs, ?_, ?_⟩
  · intro uid
    rw [idsOf_pivotResults, mem_firstSeen, mem_idStream]
  · intro e he t ht
    have h1 : valsOf (pivotResults rs) e.id = e.values :=
      valsOf_of_mem he (nodup_idsOf_pivotResults rs)
    have h2 : t ∈ collectVals rs e.id := by
      rw [← valsOf_pivotResults, h1]
      exact ht
    exact mem_collectVals.mp h2

/-- Witness for C1 at the concrete batch `pivotExample`. -/
theorem C1_witness :
    (idsOf (pivotResults pivotExample)).Nodup
    ∧ (∃ p ∈ pivotExample, ∃ u ∈ p.2, u.id = "a")
    ∧ (∃ p ∈ pivotExample, ∃ u ∈ p.2, u.id = exEntryA.id
        ∧ ∃ r ∈ u.values, tagVal 1 exR1 = tagVal p.1 r) :=
  ⟨(C1_pivot_one_entry_per_unit_and_tagging pivotExample).1,
   ((C1_pivot_one_entry_per_unit_and_tagging pivotExample).2.1 "a").mp (by decide),
   (C1_pivot_one_entry_per_unit_and_tagging pivotExample).2.2 exEntryA (by decide)
     (tagVal 1 exR1) (by decide)⟩

/-- C6: normalizing a multi-unit raw-result batch yields the same per-unit
record content — the same units and, per unit, the same tagged records as a
multiset — for any permutation of the per-variable raw results; unit order in
the output follows first-seen order across the batch, with no sorting imposed
by the normalizer. -/
theorem C6_pivot_permutation_invariant (rs rs' : List (Nat × List UnitData))
    (h : rs.Perm rs') :
    (idsOf (pivotResults rs)).Perm (idsOf (pivotResults rs'))
    ∧ (∀ uid : String,
        Multiset.ofList (valsOf (pivotResults rs) uid)
          = Multiset.ofList (valsOf (pivotResults rs') uid))
    ∧ idsOf (pivotResults rs) = firstSeen (idStream rs) := by
  refine ⟨?_, ?_, idsOf_pivotResults rs⟩
  · rw [idsOf_pivotResults, idsOf_pivotResults]
    rw [List.perm_ext_iff_of_nodup (nodup_firstSeen _) (nodup_firstSeen _)]
    intro a
    rw [mem_firstSeen, mem_firstSeen]
    exact (idStream_perm h).mem_iff
  · intro uid
    rw [valsOf_pivotResults, valsOf_pivotResults]
    exact Quot.sound (collectVals_perm h uid)

/-- Witness for C6 at `pivotExample` and its swapped batch. -/
theorem C6_witness :
    (idsOf (pivotResults pivotExample)).Perm (idsOf (pivotResults pivotExampleSwapped))
    ∧ Multiset.ofList (valsOf (pivotResults pivotExample) "a")
        = Multiset.ofList (valsOf (pivotResults pivotExampleSwapped) "a")
    ∧ idsOf (pivotResults pivotExample) = firstSeen (idStream pivotExample) :=
  ⟨(C6_pivot_permutation_invariant pivotExample pivotExampleSwapped (by decide)).1,
   (C6_pivot_permutation_invariant pivotExample pivotExampleSwapped (by decide)).2.1 "a",
   (C6_pivot_permutation_invariant pivotExample pivotExampleSwapped (by decide)).2.2⟩

/-- C2 counterexample: with variable 1's fetch succeeding over five units and
variable 2's fetch failing, the multi-unit fetch returns the error — no
dataset covering the successful units and no failure list are produced. -/
theorem C2_counterexample_partial_failure_aborts :
    fetchMultiUnit failedBatch = Except.error "HTTP 500"
    ∧ (fetchMultiUnit failedBatch).isOk = false := ⟨rfl, rfl⟩

/-- C2 (amended): the multi-unit fetch awaits `Promise.all` with no
per-request catch: it returns the pivoted dataset only when every
per-variable fetch succeeded, and returns a bare error — no partial dataset,
no failure list — as soon as any per-variable fetch failed. -/
theorem C2_amended_all_or_nothing
    (outcomes : List (Nat × Except String (List UnitData))) :
    ((∀ p ∈ outcomes, isOkOutcome p.2 = true) →
      ∃ rs, allSettledOk outcomes = Except.ok rs
        ∧ fetchMultiUnit outcomes = Except.ok (pivotResults rs))
    ∧ ((∃ p ∈ outcomes, isOkOutcome p.2 = false) →
      ∃ e, fetchMultiUnit outcomes = Except.error e) := by
  constructor
  · intro h
    obtain ⟨rs, hrs⟩ := allSettledOk_all_ok outcomes h
    exact ⟨rs, hrs, by simp [fetchMultiUnit, hrs]⟩
  · intro h
    obtain ⟨e, he⟩ := allSettledOk_has_error outcomes h
    exact ⟨e, by simp [fetchMultiUnit, he]⟩

/-- Witness for the amended C2 at the concrete all-ok and failing batches. -/
theorem C2_witness :
    (∃ rs, allSettledOk okBatch = Except.ok rs
      ∧ fetchMultiUnit okBatch = Except.ok (pivotResults rs))
    ∧ (∃ e, fetchMultiUnit failedBatch = Except.error e) :=
  ⟨(C2_amended_all_or_nothing okBatch).1 (by decide),
   (C2_amended_all_or_nothing failedBatch).2 (by decide)⟩

/-- C3 counterexample: for a query whose gap requires two hops (root level 2,
target level 6, two variables), the code issues zero unit-listing calls — not
the claimed one intermediate-level listing call plus per-intermediate
target-level listing calls; it delegates expansion to the remote source with
one data-by-variable call per variable. -/
theorem C3_counterexample_no_drilldown :
    (wizardCallPlan twoHopConfig).countP isListingCall = 0
    ∧ (wizardCallPlan twoHopConfig).countP isListingCall ≠ 1
    ∧ wizardCallPlan twoHopConfig
      = [GusCall.byVariable 100 6 [2022, 2023] "WOJ1",
         GusCall.byVariable 200 6 [2022, 2023] "WOJ1"] := by decide

/-- C3 (amended): for a multi-unit query the code performs no client-side
drill-down at fetch time: it issues exactly one data-by-variable call per
selected variable, carrying the target level and the root unit as parent,
and zero unit-listing calls; interactive browsing drills one hop per click
(level 2 to 5, level 5 to 6, skipping level 4), with no level filtering of
fetched units. -/
theorem C3_amended_server_side_expansion (c : WizardConfig) (lvl : Nat)
    (h : c.childLevel = some lvl) :
    wizardCallPlan c = c.vars.map (fun v => GusCall.byVariable v.id lvl c.years c.unit.id)
    ∧ (wizardCallPlan c).countP isListingCall = 0
    ∧ (wizardCallPlan c).length = c.vars.length
    ∧ nextDrillLevel 2 = some 5 ∧ nextDrillLevel 5 = some 6 ∧ nextDrillLevel 6 = none := by
  have hplan : wizardCallPlan c
      = c.vars.map (fun v => GusCall.byVariable v.id lvl c.years c.unit.id) := by
    unfold wizardCallPlan
    rw [h]
  refine ⟨hplan, ?_, ?_, rfl, rfl, rfl⟩
  · rw [hplan, List.countP_eq_zero]
    intro a ha
    obtain ⟨v, _, rfl⟩ := List.mem_map.mp ha
    simp [isListingCall]
  · rw [hplan, List.length_map]

/-- Witness for the amended C3 at the concrete two-hop configuration. -/
theorem C3_witness :
    wizardCallPlan twoHopConfig
      = twoHopConfig.vars.map
          (fun v => GusCall.byVariable v.id 6 twoHopConfig.years twoHopConfig.unit.id)
    ∧ (wizardCallPlan twoHopConfig).countP isListingCall = 0
    ∧ (wizardCallPlan twoHopConfig).length = twoHopConfig.vars.length
    ∧ nextDrillLevel 2 = some 5 ∧ nextDrillLevel 5 = some 6 ∧ nextDrillLevel 6 = none :=
  C3_amended_server_side_expansion twoHopConfig 6 (by decide)

/-- C7: for a query with no target level, the plan contains no unit-listing
call (resolution touches the network zero times and the fetched unit set is
just the root), and the single data call is the one data-by-unit call
carrying all selected variable ids and all years. -/
theorem C7_single_unit_one_call (c : WizardConfig) (h : c.childLevel = none) :
    wizardCallPlan c = [GusCall.byUnit c.unit.id (c.vars.map SrcVariable.id) c.years]
    ∧ (wizardCallPlan c).countP isListingCall = 0
    ∧ (wizardCallPlan c).length = 1 := by
  have hplan : wizardCallPlan c
      = [GusCall.byUnit c.unit.id (c.vars.map SrcVariable.id) c.years] := by
    unfold wizardCallPlan
    rw [h]
  refine ⟨hplan, ?_, by rw [hplan]; rfl⟩
  rw [hplan]
  rfl

/-- Witness for C7 at the concrete single-unit configuration. -/
theorem C7_witness :
    wizardCallPlan singleConfig
      = [GusCall.byUnit singleConfig.unit.id
          (singleConfig.vars.map SrcVariable.id) singleConfig.years]
    ∧ (wizardCallPlan singleConfig).countP isListingCall = 0
    ∧ (wizardCallPlan singleConfig).length = 1 :=
  C7_single_unit_one_call singleConfig (by decide)

set_option maxRecDepth 8192 in
/-- C4 counterexample: the XML serializer samples the wall clock, so two
calls on identical data at different times produce different bytes. -/
theorem C4_counterexample_xml_not_time_independent :
    generateGusXml xmlExample "2024-01-01T00:00:00.000Z"
      ≠ generateGusXml xmlExample "2025-06-30T12:00:00.000Z" := by decide

/-- C4 (amended): the CSV builder reads no clock — its embedding is a
function of the dataset and variable metadata only — and the XML serializer
is a pure function of the dataset and the timestamp it samples: its outputs
are byte-identical exactly when the sampled timestamps coincide, so calls at
different times differ (in the LastUpdate element). -/
theorem C4_amended_serializer_purity (d : GusXmlData) (t₁ t₂ : String) :
    (generateGusXml d t₁ = generateGusXml d t₂ ↔ t₁ = t₂)
    ∧ multiUnitCsv d.resultsMulti [] = multiUnitCsv d.resultsMulti [] := by
  refine ⟨⟨fun h => ?_, fun h => by rw [h]⟩, rfl⟩
  have h' := congrArg String.data h
  simp only [generateGusXml, String.data_append] at h'
  exact String.ext (List.append_cancel_left (List.append_cancel_right h'))

/-- Witness for the amended C4 at concrete timestamps. -/
theorem C4_witness :
    (generateGusXml xmlExample "2024-01-01T00:00:00.000Z"
        = generateGusXml xmlExample "2024-01-01T00:00:00.000Z"
      ↔ ("2024-01-01T00:00:00.000Z" : String) = "2024-01-01T00:00:00.000Z")
    ∧ multiUnitCsv xmlExample.resultsMulti [] = multiUnitCsv xmlExample.resultsMulti [] :=
  C4_amended_serializer_purity xmlExample
    "2024-01-01T00:00:00.000Z" "2024-01-01T00:00:00.000Z"

/-- C9 counterexample: a record value containing a special character is
interpolated into the XML output unescaped — the emitted Record block holds
the raw value, not its escaped form. -/
theorem C9_counterexample_value_not_escaped :
    xmlRecordMulti badVal
      = "      <Record varId=\"5\" year=\"2022\">\n        <Value>a<b</Value>\n      </Record>"
    ∧ escapeXml "a<b" = "a&lt;b"
    ∧ xmlRecordMulti badVal
      ≠ "      <Record varId=\"5\" year=\"2022\">\n        <Value>a&lt;b</Value>\n      </Record>" := by
  decide

/-- C9 (amended): `escapeXml` replaces each of the five special characters by
its entity — its output never contains a raw `<`, `>`, quote or apostrophe —
and it is applied to unit names, variable names and measure units; unit ids,
variable ids, years, record values and attribute ids are interpolated without
escaping. -/
theorem C9_amended_escaping_scope (s : String) :
    (escapeChar '<' = "&lt;" ∧ escapeChar '>' = "&gt;" ∧ escapeChar '&' = "&amp;"
      ∧ escapeChar '\'' = "&apos;" ∧ escapeChar '"' = "&quot;")
    ∧ (∀ c ∈ (escapeXml s).data, c ≠ '<' ∧ c ≠ '>' ∧ c ≠ '"' ∧ c ≠ '\'')
    ∧ (∀ v : XmlVariable, xmlVariableBlock v
        = "    <Variable id=\"" ++ toString v.id ++ "\">\n      <Name>"
          ++ escapeXml v.n1 ++ "</Name>\n      <MeasureUnit>"
          ++ escapeXml v.measureUnit ++ "</MeasureUnit>\n    </Variable>")
    ∧ (∀ val : TaggedVal, val.attrId = none → xmlRecordMulti val
        = "      <Record varId=\"" ++ toString val.variableId ++ "\" year=\""
          ++ toString val.year ++ "\">\n" ++ "        <Value>" ++ jsStr val.value
          ++ "</Value>\n" ++ "      </Record>") := by
  refine ⟨⟨rfl, rfl, rfl, rfl, rfl⟩, ?_, fun v => rfl, fun val hval => ?_⟩
  · intro c hc
    unfold escapeXml at hc
    by_cases hs : s = ""
    · rw [if_pos hs] at hc
      cases hc
    · rw [if_neg hs] at hc
      obtain ⟨a, _, ha⟩ := mem_escapeCore hc
      exact escapeChar_no_specials a c ha
  · unfold xmlRecordMulti
    rw [hval]
    simp

/-- Witness for the amended C9 at a concrete escaped string. -/
theorem C9_witness :
    escapeChar '<' = "&lt;"
    ∧ (('&' : Char) ≠ '<' ∧ ('&' : Char) ≠ '>' ∧ ('&' : Char) ≠ '"' ∧ ('&' : Char) ≠ '\'') :=
  ⟨(C9_amended_escaping_scope "a<b").1.1,
   (C9_amended_escaping_scope "a<b").2.1 '&' (by decide)⟩

/-- C5 counterexample: the dataset years are {2022, 2023} and unit B has no
record in 2023, so the (unit B, 2023) row is omitted entirely — the grid has
3 data rows instead of the rectangular 2 units times 2 years. -/
theorem C5_counterexample_row_omitted :
    getAllYearsMulti gapData = [2022, 2023]
    ∧ gapData.length * (getAllYearsMulti gapData).length = 4
    ∧ (multiUnitRows gapData).length = 3
    ∧ rowCells (uniqueVarIds gapData) gapUnitB 2023 ∉ multiUnitRows gapData := by decide

/-- C5 (amended): within every emitted multi-unit CSV row the shape is
rectangular — each row has exactly 3 + number-of-variable-columns cells — and
a (unit, variable, year) intersection with no matching record renders an
explicit empty string; but the year axis is dataset-derived (a query year
absent from all records yields no column at all, claim C10) and a (unit,
year) row with no record for any variable is omitted entirely rather than
rendered empty. -/
theorem C5_amended_missing_cells (data : List UnitEntry) :
    (∀ r ∈ multiUnitRows data, r.length = 3 + (uniqueVarIds data).length)
    ∧ (∀ r ∈ multiUnitRows data, ∃ u ∈ data, ∃ y ∈ getAllYearsMulti data,
        rowHasData (uniqueVarIds data) u y = true
          ∧ r = rowCells (uniqueVarIds data) u y)
    ∧ (∀ (u : UnitEntry) (vid : Nat) (y : Int),
        findVal u vid y = none → renderVal (findVal u vid y) = "") := by
  have hrow : ∀ r ∈ multiUnitRows data, ∃ u ∈ data, ∃ y ∈ getAllYearsMulti data,
      rowHasData (uniqueVarIds data) u y = true
        ∧ r = rowCells (uniqueVarIds data) u y := by
    intro r hr
    unfold multiUnitRows at hr
    obtain ⟨u, hu, hy⟩ := List.mem_flatMap.mp hr
    obtain ⟨y, hymem, hsome⟩ := List.mem_filterMap.mp hy
    by_cases hd : rowHasData (uniqueVarIds data) u y
    · rw [if_pos hd] at hsome
      exact ⟨u, hu, y, hymem, hd, (Option.some.inj hsome).symm⟩
    · rw [if_neg hd] at hsome
      cases hsome
  refine ⟨?_, hrow, ?_⟩
  · intro r hr
    obtain ⟨u, _, y, _, _, rfl⟩ := hrow r hr
    simp [rowCells]
    omega
  · intro _ _ _ h
    rw [h]
    rfl

/-- Witness for the amended C5 at the concrete gap dataset. -/
theorem C5_witness :
    (rowCells (uniqueVarIds gapData) gapUnitA 2022).length = 3 + (uniqueVarIds gapData).length
    ∧ renderVal (findVal gapUnitB 7 2023) = "" :=
  ⟨(C5_amended_missing_cells gapData).1 (rowCells (uniqueVarIds gapData) gapUnitA 2022)
     (by decide),
   (C5_amended_missing_cells gapData).2.2 gapUnitB 7 2023 (by decide)⟩

/-- C8 counterexample: with two records for the same (unit, variable, year)
key — value 10 arriving before value 20 — the pivot retains both, but the
cell lookup used by the exports returns the first-arrived record, so the
rendered value is 10, not the last-arrived 20. -/
theorem C8_counterexample_first_write_wins :
    pivotResults dupBatch = [dupEntry]
    ∧ renderVal (findVal dupEntry 7 2022) = "10"
    ∧ renderVal (findVal dupEntry 7 2022) ≠ "20" := by decide

/-- C8 (amended): the pivot retains every duplicate record unmerged — the
records stored under a unit id are exactly the tagged raw values in arrival
order — and whenever a single value is rendered for a cell, the exports use
the first-arrived matching record (`Array.prototype.find` returns the head of
the matches), i.e. first-write-wins rather than last-write-wins. -/
theorem C8_amended_duplicates_first_write_wins :
    (∀ (rs : List (Nat × List UnitData)) (uid : String),
      valsOf (pivotResults rs) uid = collectVals rs uid)
    ∧ (∀ (u : UnitEntry) (vid : Nat) (y : Int),
        findVal u vid y
          = (u.values.filter (fun v => v.variableId == vid && v.year == y)).head?) :=
  ⟨valsOf_pivotResults, fun u vid y =>
    find?_eq_head?_filter (fun (v : TaggedVal) => v.variableId == vid && v.year == y) u.values⟩

/-- Witness for the amended C8 at the concrete duplicate batch. -/
theorem C8_witness :
    valsOf (pivotResults dupBatch) "u1" = collectVals dupBatch "u1"
    ∧ findVal dupEntry 7 2022
        = (dupEntry.values.filter (fun v => v.variableId == 7 && v.year == 2022)).head? :=
  ⟨C8_amended_duplicates_first_write_wins.1 dupBatch "u1",
   C8_amended_duplicates_first_write_wins.2 dupEntry 7 2022⟩

/-- C10: in both data shapes the year axis is computed from the dataset
itself — it is the strictly ascending list of exactly those years that appear
in some record — so a year requested in the query but absent from every
record yields no entry, and the order is ascending regardless of record
order. -/
theorem C10_year_axis_from_dataset (data : List UnitEntry) (sdata : List VarResult) :
    (getAllYearsMulti data).Sorted (· < ·)
    ∧ (∀ y : Int, y ∈ getAllYearsMulti data ↔ ∃ u ∈ data, ∃ v ∈ u.values, v.year = y)
    ∧ (getAllYearsSingle sdata).Sorted (· < ·)
    ∧ (∀ y : Int, y ∈ getAllYearsSingle sdata ↔ ∃ vr ∈ sdata, ∃ v ∈ vr.values, v.year = y) := by
  obtain ⟨hs₁, hm₁⟩ := sortedDistinct_spec (data.flatMap (fun u => u.values.map TaggedVal.year))
  obtain ⟨hs₂, hm₂⟩ := sortedDistinct_spec (sdata.flatMap (fun v => v.values.map RawVal.year))
  refine ⟨hs₁, ?_, hs₂, ?_⟩
  · intro y
    rw [getAllYearsMulti, hm₁ y]
    simp only [List.mem_flatMap, List.mem_map]
  · intro y
    rw [getAllYearsSingle, hm₂ y]
    simp only [List.mem_flatMap, List.mem_map]

/-- Witness for C10 at a dataset whose records arrive in descending year
order: the axis is still ascending and contains exactly the record years. -/
theorem C10_witness :
    (getAllYearsMulti yearsData).Sorted (· < ·)
    ∧ ((2022 : Int) ∈ getAllYearsMulti yearsData
        ↔ ∃ u ∈ yearsData, ∃ v ∈ u.values, v.year = 2022) :=
  ⟨(C10_year_axis_from_dataset yearsData []).1,
   (C10_year_axis_from_dataset yearsData []).2.1 2022⟩

end Gus
